import Mathlib

/-
Verification development for the autonixdoc repository.

The program walks a source tree, decides which files are documentation
targets, maps each source path to a destination path (or a skip decision),
and invokes an external generator per file under a configurable failure
policy.

Paths are modelled the way Rust std::path parses them: as normalized lists
of components (a root separator, a leading current-directory marker, a
parent-directory marker, or a normal name).  Rust Path equality and
strip_prefix compare component sequences, so this embedding is faithful for
the operations the program uses (parent, strip_prefix, file_stem, join,
with_extension).  Machine strings are Lean Strings; the source paths the
program manipulates through str conversions are valid unicode in this model.
-/

/-- One parsed path component, as produced by Rust Path::components. -/
inductive PathComp where
  | rootDir
  | curDir
  | parentDir
  | normal (s : String)
deriving DecidableEq

/-- A path is its normalized component list (Rust Path/PathBuf equality is
component-wise, so list equality matches). -/
abbrev RsPath := List PathComp

/-- Well-formedness of a parsed path: the root marker and the
current-directory marker can only appear as the first component.  Every
component list produced by Rust path parsing satisfies this. -/
def rsWF (p : RsPath) : Prop :=
  ∀ c ∈ p.tail, c ≠ PathComp.rootDir ∧ c ≠ PathComp.curDir

instance (p : RsPath) : Decidable (rsWF p) := by
  unfold rsWF; infer_instance

/-- Rust Path::parent: drop the last component; none for the empty path and
for the bare root. -/
def rsParent (p : RsPath) : Option RsPath :=
  if p = [] ∨ p = [PathComp.rootDir] then none else some p.dropLast

/-- Rust Path::file_name: the last component when it is a normal name. -/
def rsFileName (p : RsPath) : Option String :=
  match p.getLast? with
  | some (PathComp.normal s) => some s
  | _ => none

/-- Split a character list at its last dot: returns (before, after) for the
last occurrence of the dot character, none when there is no dot.  Mirrors
the rsplitn used by Rust file_stem and extension. -/
def splitAtLastDot : List Char → Option (List Char × List Char)
  | [] => none
  | c :: rest =>
    match splitAtLastDot rest with
    | some (b, a) => some (c :: b, a)
    | none => if c = '.' then some ([], rest) else none

/-- Rust file-name stem: the whole name when it has no dot, or when the
portion before the last dot is empty (dotfiles); otherwise the portion
before the last dot.  The ".." name is special-cased as in the Rust source
(it can never be a normal component of a parsed path). -/
def rsStemStr (s : String) : String :=
  if s = ".." then s
  else
    match splitAtLastDot s.data with
    | none => s
    | some ([], _) => s
    | some (b, _) => String.mk b

/-- Rust file-name extension: none when there is no dot or the portion
before the last dot is empty; otherwise the portion after the last dot. -/
def rsExtStr (s : String) : Option String :=
  if s = ".." then none
  else
    match splitAtLastDot s.data with
    | none => none
    | some ([], _) => none
    | some (_, a) => some (String.mk a)

/-- Rust Path::file_stem. -/
def rsFileStem (p : RsPath) : Option String :=
  (rsFileName p).map rsStemStr

/-- Rust Path::extension. -/
def rsExtension (p : RsPath) : Option String :=
  (rsFileName p).bind rsExtStr

/-- True for every component other than the current-directory marker. -/
def notCurDir : PathComp → Bool
  | PathComp.curDir => false
  | _ => true

/-- Rust Path::join on parsed components: an absolute right operand
replaces the left one; otherwise the components are appended, and a
current-directory marker of the right operand is dropped unless it stays in
leading position (component parsing of the pushed string drops it). -/
def rsJoin (p q : RsPath) : RsPath :=
  if q.head? = some PathComp.rootDir then q
  else if p = [] then q
  else p ++ q.filter notCurDir

/-- Rust Path::strip_prefix, which succeeds exactly when the base component
sequence is a prefix of the path component sequence. -/
def rsStripBase (base p : RsPath) : Option RsPath :=
  if base <+: p then some (p.drop base.length) else none

/-- Rust PathBuf::with_extension with a nonempty extension: the last
component becomes its stem followed by a dot and the new extension; a path
with no file name is unchanged. -/
def rsWithExtension (p : RsPath) (ext : String) : RsPath :=
  match rsFileName p with
  | none => p
  | some s => p.dropLast ++ [PathComp.normal (rsStemStr s ++ "." ++ ext)]

/-- Rendering of one component for display and to_string_lossy purposes. -/
def pathCompString : PathComp → String
  | PathComp.rootDir => ""
  | PathComp.curDir => "."
  | PathComp.parentDir => ".."
  | PathComp.normal s => s

/-- Canonical string form of a path (Rust to_string_lossy / display of the
normalized path). -/
def rsToString (p : RsPath) : String :=
  match p with
  | PathComp.rootDir :: rest => "/" ++ String.intercalate "/" (rest.map pathCompString)
  | _ => String.intercalate "/" (p.map pathCompString)

/-
Configuration model, from src/cli.rs.
-/

/-- FailureBehavior from src/cli.rs: how individual generation failures are
handled. -/
inductive FailureBehavior where
  | Abort
  | Log
  | Skip
deriving DecidableEq

/-- The derived Default of FailureBehavior marks Log as the default
variant. -/
def failureBehaviorDefault : FailureBehavior := FailureBehavior.Log

/-- LogLevel newtype contents: the five level filters producible by the
FromStr implementation in src/cli.rs. -/
inductive LogLevel where
  | error
  | warn
  | info
  | debug
  | trace
deriving DecidableEq

/-- Rust str::to_lowercase as used by the two FromStr implementations.
Modelled as ASCII lowercasing (the comparison targets are ASCII literals;
unicode special-case lowercasings are outside this model). -/
def rsToLowercase (s : String) : String :=
  String.mk (s.data.map Char.toLower)

/-- FromStr for FailureBehavior (src/cli.rs): case-insensitive match of
abort, log, skip; anything else is an error, modelled as none. -/
def failureBehaviorFromStr (s : String) : Option FailureBehavior :=
  if rsToLowercase s = "abort" then some FailureBehavior.Abort
  else if rsToLowercase s = "log" then some FailureBehavior.Log
  else if rsToLowercase s = "skip" then some FailureBehavior.Skip
  else none

/-- FromStr for LogLevel (src/cli.rs): case-insensitive match of error,
warn, info, debug, trace; anything else is an error, modelled as none. -/
def logLevelFromStr (s : String) : Option LogLevel :=
  if rsToLowercase s = "error" then some LogLevel.error
  else if rsToLowercase s = "warn" then some LogLevel.warn
  else if rsToLowercase s = "info" then some LogLevel.info
  else if rsToLowercase s = "debug" then some LogLevel.debug
  else if rsToLowercase s = "trace" then some LogLevel.trace
  else none

/-- resolve_option from src/cli.rs: the CLI value if present, else the
environment value (the variable content, when the variable is set) parsed,
dropping parse failures.  The process environment is abstracted as the
optional string content of the named variable. -/
def resolveOption {T : Type} (cliValue : Option T) (envValue : Option String)
    (parseEnv : String → Option T) : Option T :=
  match cliValue with
  | some v => some v
  | none => envValue.bind parseEnv

/-- resolve_with_config from src/cli.rs: three-tier priority, CLI value,
else parsed environment value, else configuration-file value. -/
def resolveWithConfig {T : Type} (cliValue : Option T) (envValue : Option String)
    (parseEnv : String → Option T) (configValue : Option T) : Option T :=
  match cliValue with
  | some v => some v
  | none =>
    match envValue.bind parseEnv with
    | some v => some v
    | none => configValue

/-- Behaviors::new from src/cli.rs resolves the effective failure behavior
with unwrap_or_default, whose default is Log. -/
def behaviorsOnFailure (resolved : Option FailureBehavior) : FailureBehavior :=
  resolved.getD failureBehaviorDefault

/-
Path identification, from src/cli.rs.
-/

/-- PathIdentification from src/cli.rs.  The compiled regex of the pattern
variant is abstracted by its is_match function on the string form of a
path (search semantics: the matcher may hit anywhere in the string). -/
inductive PathIdentification where
  | nixExtension
  | regexMatch (isMatch : String → Bool)

/-- PathIdentification::should_process from src/cli.rs: the extension
strategy compares the final extension with the literal "nix" (the to_str
step never fails in this unicode model); the pattern strategy runs the
compiled matcher on the path's string form. -/
def shouldProcess : PathIdentification → RsPath → Bool
  | PathIdentification.nixExtension, p =>
    ((rsExtension p).map (fun ext => ext == "nix")).getD false
  | PathIdentification.regexMatch m, p => m (rsToString p)

/-- Concrete matcher modelling the compiled regex of the example pattern
(backslash dot r s dollar): it matches somewhere in a string exactly when
the string ends with ".rs". -/
def dotRsSuffixMatch (s : String) : Bool :=
  List.isSuffixOf ['.', 'r', 's'] s.data

/-
Path mapping, from src/mapping.rs.
-/

/-- AutoMappingConfig from src/mapping.rs.  The field pfx models the source
field named prefix and anchorPfx the one named anchor_prefix.  The ignore
set is a HashSet of PathBuf, whose membership test uses component-wise path
equality, modelled by list membership. -/
structure AutoMappingConfig where
  ignorePaths : List RsPath
  failureBehavior : Option FailureBehavior
  pfx : Option String
  anchorPfx : Option String
  loggingLevel : Option String

/-- Default::default() for AutoMappingConfig: empty ignore set, all
optional fields absent. -/
def autoMappingConfigDefault : AutoMappingConfig :=
  { ignorePaths := [], failureBehavior := none, pfx := none,
    anchorPfx := none, loggingLevel := none }

/-- PathAction from src/mapping.rs. -/
inductive PathAction where
  | OutputTo (dest : RsPath)
  | Skip
deriving DecidableEq

/-- The outcome of AutoMapping::resolve.  The source returns an anyhow
Result; the expect call on the strip operation is a Rust panic, which is not
a Result value and cannot be matched on by callers, so it is modelled as a
distinct constructor. -/
inductive ResolveResult where
  | ok (action : PathAction)
  | err (msg : String)
  | panicked (msg : String)
deriving DecidableEq

/-- AutoMapping from src/mapping.rs: the input and output base
directories. -/
structure AutoMapping where
  sourceBase : RsPath
  destBase : RsPath

/-- AutoMapping::resolve from src/mapping.rs, step for step: the ignore
check first, then parent (error when absent), then strip_prefix of the
source base from the parent (a panic when the base is not a prefix), then
file_stem (error when absent), and finally destination = dest base joined
with the relative parent, joined with the stem, with extension md.  The
panic message is a paraphrase without apostrophes of the expect message in
the source. -/
def AutoMapping.resolve (m : AutoMapping) (config : AutoMappingConfig)
    (sourcePath : RsPath) : ResolveResult :=
  if sourcePath ∈ config.ignorePaths then ResolveResult.ok PathAction.Skip
  else
    match rsParent sourcePath with
    | none => ResolveResult.err "source path had no parent"
    | some sourceDir =>
      match rsStripBase m.sourceBase sourceDir with
      | none =>
        ResolveResult.panicked
          "Source directory is not a prefix of source path? Please report this, it is a bug"
      | some relativePath =>
        match rsFileStem sourcePath with
        | none => ResolveResult.err "source path had no file name"
        | some sourceStem =>
          ResolveResult.ok (PathAction.OutputTo
            (rsWithExtension
              (rsJoin (rsJoin m.destBase relativePath) [PathComp.normal sourceStem]) "md"))

/-
External generator invocation, from src/nixdoc.rs.
-/

/-- The Nixdoc command builder from src/nixdoc.rs.  The field pfx models
the source field named prefix and anchorPfx the one named anchor_prefix. -/
structure Nixdoc where
  category : String
  description : String
  file : String
  pfx : Option String
  anchorPfx : Option String

/-- The Into Command implementation from src/nixdoc.rs: the argument list
of the spawned nixdoc process, with the two optional flags appended exactly
when the corresponding optional field is present. -/
def Nixdoc.intoArgs (n : Nixdoc) : List String :=
  ["--category", n.category, "--description", n.description, "--file", n.file]
    ++ (match n.pfx with
        | some p => ["--prefix", p]
        | none => [])
    ++ (match n.anchorPfx with
        | some a => ["--anchor-prefix", a]
        | none => [])

/-- Modelled from the spec: the current AutoNixdoc::execute builds the
Nixdoc value passing the configured prefix and anchor prefix only when they
are non-empty.  The current execute (the one called by Driver::run_in_path
with a config and constructed with a mapping) is absent from src/; the
nixdoc.rs copy under src/ is an older iteration whose execute always sets
both options. -/
def buildNixdoc (category description file pfxVal anchorVal : String) : Nixdoc :=
  { category := category
    description := description
    file := file
    pfx := if pfxVal = "" then none else some pfxVal
    anchorPfx := if anchorVal = "" then none else some anchorVal }

/-- Observable outcome of the spawned generator process. -/
structure CommandOutput where
  exitSuccess : Bool
  stdoutText : String
  stderrText : String

/-- The subprocess stdout is redirected into the destination file, so the
destination content is the stdout text verbatim (src/nixdoc.rs redirects
Stdio::from(dest_file)). -/
def nixdocDestContent (out : CommandOutput) : String :=
  out.stdoutText

/-- Exit-status handling from src/nixdoc.rs: success yields Ok, any other
status yields an error carrying the stderr text. -/
def nixdocResult (out : CommandOutput) : Except String Unit :=
  if out.exitSuccess then Except.ok ()
  else Except.error ("nixdoc command error: " ++ out.stderrText)

/-- Strip one trailing carriage return, as BufRead::lines does on lines
terminated by a newline. -/
def stripCR (l : List Char) : List Char :=
  if l.getLast? = some '\r' then l.dropLast else l

/-- Splitting a character stream into lines the way BufRead::lines does:
lines are separated by the newline character, a terminated line loses a
trailing carriage return, a final unterminated line is yielded as is, and a
trailing newline produces no extra empty line. -/
def rsLinesAux : List Char → List Char → List (List Char)
  | [], acc => if acc = [] then [] else [acc.reverse]
  | c :: rest, acc =>
    if c = '\n' then stripCR acc.reverse :: rsLinesAux rest []
    else rsLinesAux rest (c :: acc)

/-- The line list of a file content string. -/
def rsLines (s : String) : List String :=
  (rsLinesAux s.data []).map (fun l => String.mk l)

/-- The one-line description extracted by AutoNixdoc::execute
(src/nixdoc.rs): lines().nth(1) — the line of index 1, the second line —
defaulting to the empty string. -/
def secondLineDescription (content : String) : String :=
  (rsLines content).getD 1 ""

/-- Modelled from the spec: the current AutoNixdoc::execute derives the
category by taking the source path relative to the input root, dropping the
final extension from the last component, and joining the components with a
dot.  This derivation lives in the current nixdoc.rs, absent from src/
(the src/ copy is an older iteration that uses the bare file stem). -/
def dottedCategory : List String → Option String
  | [] => none
  | [n] => some (rsStemStr n)
  | n :: rest => (dottedCategory rest).map (fun c => n ++ "." ++ c)

/-- The name carried by a normal component. -/
def pathCompName : PathComp → Option String
  | PathComp.normal s => some s
  | _ => none

/-- Modelled from the spec: category of a source path relative to the input
root (see dottedCategory). -/
def categoryOf (inputRoot p : RsPath) : Option String :=
  (rsStripBase inputRoot p).bind (fun rel => dottedCategory (rel.filterMap pathCompName))

/-
Driver loop, from src/cli.rs (Driver::run_in_path).
-/

/-- One item yielded by the directory walk: either a traversal error or an
entry with its directory flag. -/
inductive WalkItem where
  | errEntry (msg : String)
  | fileEntry (p : RsPath) (isDir : Bool)

/-- Outcome of the per-file generation pipeline.  A Rust panic is kept
distinct from an error Result because a match on the Result can never
observe it. -/
inductive ExecResult where
  | ok
  | err (msg : String)
  | panicked (msg : String)

/-- How a run ends. -/
inductive RunEnd where
  | finished
  | failed (msg : String)
  | panicked (msg : String)
deriving DecidableEq

/-- Observable result of the driver loop: the diagnostics emitted to the
error stream, the files processed successfully, and how the run ended. -/
structure RunResult where
  diagnostics : List String
  processed : List RsPath
  outcome : RunEnd
deriving DecidableEq

/-- Driver::run_in_path from src/cli.rs over an abstract walk sequence:
traversal errors and generation errors are both dispatched on the
configured failure behavior (Abort returns the contextualized error at
once, Log emits a diagnostic and continues, Skip continues silently);
directories and files the identification strategy declines are passed
over; a panic in the pipeline unwinds the whole run no matter the
behavior.  Context attachment by anyhow is rendered as the context text,
a colon and the underlying message. -/
def runInPath (b : FailureBehavior) (ident : PathIdentification)
    (exec : RsPath → ExecResult) : List WalkItem → RunResult
  | [] => { diagnostics := [], processed := [], outcome := RunEnd.finished }
  | WalkItem.errEntry e :: rest =>
    match b with
    | FailureBehavior.Abort =>
      { diagnostics := [], processed := [],
        outcome := RunEnd.failed ("Failed to list directory: " ++ e) }
    | FailureBehavior.Log =>
      let r := runInPath b ident exec rest
      { diagnostics := ("Failed to list directory: " ++ e) :: r.diagnostics,
        processed := r.processed, outcome := r.outcome }
    | FailureBehavior.Skip => runInPath b ident exec rest
  | WalkItem.fileEntry p isDir :: rest =>
    if !isDir && shouldProcess ident p then
      match exec p with
      | ExecResult.ok =>
        let r := runInPath b ident exec rest
        { diagnostics := r.diagnostics, processed := p :: r.processed,
          outcome := r.outcome }
      | ExecResult.err e =>
        match b with
        | FailureBehavior.Abort =>
          { diagnostics := [], processed := [],
            outcome := RunEnd.failed
              ("Documentation generation failed for file " ++ rsToString p ++ ": " ++ e) }
        | FailureBehavior.Log =>
          let r := runInPath b ident exec rest
          { diagnostics :=
              ("Failed to generate documentation for " ++ rsToString p ++ ": " ++ e)
                :: r.diagnostics,
            processed := r.processed, outcome := r.outcome }
        | FailureBehavior.Skip => runInPath b ident exec rest
      | ExecResult.panicked m =>
        { diagnostics := [], processed := [], outcome := RunEnd.panicked m }
    else runInPath b ident exec rest


/-
Shared example values used by witnesses and counterexamples.
-/

/-- Example input root, the absolute path of the src directory. -/
def exSrcRoot : RsPath := [PathComp.rootDir, PathComp.normal "src"]

/-- Example output root, the absolute path of the docs directory. -/
def exDocsRoot : RsPath := [PathComp.rootDir, PathComp.normal "docs"]

/-- Example mapping from the src root to the docs root. -/
def exMapping : AutoMapping := { sourceBase := exSrcRoot, destBase := exDocsRoot }

/-- Example source file with a dot inside its stem. -/
def exDottedSource : RsPath :=
  [PathComp.rootDir, PathComp.normal "src", PathComp.normal "foo.bar.nix"]

/-- Example nested source file. -/
def exNestedSource : RsPath :=
  [PathComp.rootDir, PathComp.normal "src", PathComp.normal "lib", PathComp.normal "module.nix"]

/-
Helper lemmas about the path operations.
-/

/-- Joining with a right operand that is not absolute and holds no
current-directory marker is list append. -/
theorem rsJoin_eq_append (p q : RsPath) (hroot : q.head? ≠ some PathComp.rootDir)
    (hcur : ∀ c ∈ q, notCurDir c = true) : rsJoin p q = p ++ q := by
  unfold rsJoin
  rw [if_neg hroot]
  by_cases hp : p = []
  · subst hp; simp
  · rw [if_neg hp, List.filter_eq_self.mpr hcur]

/-- A successful strip of a nonempty base keeps only components of the
tail of the stripped path. -/
theorem rsStripBase_mem_tail {base d r : RsPath} (hb : base ≠ [])
    (h : rsStripBase base d = some r) : ∀ c ∈ r, c ∈ d.tail := by
  unfold rsStripBase at h
  split at h
  · intro c hc
    have hr : r = d.drop base.length := by
      exact (Option.some.injEq _ _).mp h.symm
    subst hr
    have hlen : 1 ≤ base.length := by
      have := List.length_pos.mpr hb
      omega
    have hdrop : d.drop base.length = d.tail.drop (base.length - 1) := by
      rw [← List.drop_one, List.drop_drop]
      congr 1
      omega
    rw [hdrop] at hc
    exact List.drop_subset _ _ hc
  · exact absurd h (by simp)

/-
Claim theorems.
-/

/-- Claim C5: a source path in the ignore set always resolves to Skip, with
the ignore check performed before any path arithmetic, so resolution of an
ignored path never errors and never panics whatever the path's shape; a
path outside the ignore set resolves exactly as it would with an empty
ignore set. -/
theorem claim_c5 (m : AutoMapping) (config : AutoMappingConfig) (p : RsPath) :
    (p ∈ config.ignorePaths → m.resolve config p = ResolveResult.ok PathAction.Skip)
    ∧ (p ∉ config.ignorePaths →
        m.resolve config p = m.resolve { config with ignorePaths := [] } p) := by
  constructor
  · intro h
    simp [AutoMapping.resolve, h]
  · intro h
    simp [AutoMapping.resolve, h]

/-- Witness for claim C5: the ignored path of the source tests (the lib
module below the src root, with its own parent and stem removed from the
mapping's reach) resolves to Skip even though it is outside the input
root. -/
theorem claim_c5_witness :
    ([PathComp.normal "outside.nix"] : RsPath)
        ∈ ({ autoMappingConfigDefault with
              ignorePaths := [[PathComp.normal "outside.nix"]] } : AutoMappingConfig).ignorePaths
    ∧ exMapping.resolve
        { autoMappingConfigDefault with ignorePaths := [[PathComp.normal "outside.nix"]] }
        [PathComp.normal "outside.nix"] = ResolveResult.ok PathAction.Skip := by
  refine ⟨by decide, ?_⟩
  exact (claim_c5 exMapping
    { autoMappingConfigDefault with ignorePaths := [[PathComp.normal "outside.nix"]] }
    [PathComp.normal "outside.nix"]).1 (by decide)

/-- Claim C2: per-field three-tier precedence.  An explicitly supplied CLI
value always wins; otherwise a present and parseable environment value
wins; otherwise the configuration-file value; otherwise the caller's
default.  The resolve_option used for the fields without a
configuration-file tier (such as the regex pattern) is the same resolution
with an absent configuration value.  The Abort/Log/Skip scenario of the
spec is proved on the concrete FailureBehavior parser. -/
theorem claim_c2 :
    (∀ (T : Type) (c : T) (env : Option String) (parse : String → Option T)
        (cfg : Option T), resolveWithConfig (some c) env parse cfg = some c)
    ∧ (∀ (T : Type) (s : String) (t : T) (parse : String → Option T) (cfg : Option T),
        parse s = some t → resolveWithConfig none (some s) parse cfg = some t)
    ∧ (∀ (T : Type) (s : String) (parse : String → Option T) (cfg : Option T),
        parse s = none → resolveWithConfig none (some s) parse cfg = cfg)
    ∧ (∀ (T : Type) (parse : String → Option T) (cfg : Option T),
        resolveWithConfig none none parse cfg = cfg)
    ∧ (∀ (T : Type) (parse : String → Option T) (dflt : T),
        (resolveWithConfig none none parse none).getD dflt = dflt)
    ∧ (∀ (T : Type) (cli : Option T) (env : Option String) (parse : String → Option T),
        resolveOption cli env parse = resolveWithConfig cli env parse none)
    ∧ resolveWithConfig (some FailureBehavior.Abort) (some "Log") failureBehaviorFromStr
        (some FailureBehavior.Skip) = some FailureBehavior.Abort
    ∧ resolveWithConfig none (some "Log") failureBehaviorFromStr
        (some FailureBehavior.Skip) = some FailureBehavior.Log
    ∧ resolveWithConfig none none failureBehaviorFromStr
        (some FailureBehavior.Skip) = some FailureBehavior.Skip := by
  refine ⟨?_, ?_, ?_, ?_, ?_, ?_, by decide, by decide, by decide⟩
  · intro T c env parse cfg
    rfl
  · intro T s t parse cfg h
    simp [resolveWithConfig, h]
  · intro T s parse cfg h
    simp [resolveWithConfig, h]
  · intro T parse cfg
    rfl
  · intro T parse dflt
    rfl
  · intro T cli env parse
    cases cli with
    | some v => rfl
    | none =>
      simp only [resolveOption, resolveWithConfig]
      cases env.bind parse <;> rfl

/-- Witness for claim C2: the environment tier at a concrete parseable
value, applied through the theorem. -/
theorem claim_c2_witness :
    failureBehaviorFromStr "Skip" = some FailureBehavior.Skip
    ∧ resolveWithConfig none (some "Skip") failureBehaviorFromStr
        (some FailureBehavior.Abort) = some FailureBehavior.Skip := by
  refine ⟨by decide, ?_⟩
  exact claim_c2.2.1 FailureBehavior "Skip" FailureBehavior.Skip failureBehaviorFromStr
    (some FailureBehavior.Abort) (by decide)

/-- Claim C10: parsing of failure-behavior and logging-level strings is
case-insensitive: a FailureBehavior parse succeeds exactly when the
lowercase form is abort, log or skip, with the matching variant, and a
LogLevel parse succeeds exactly when the lowercase form is error, warn,
info, debug or trace; every other string is rejected. -/
theorem claim_c10 (s : String) :
    (failureBehaviorFromStr s = some FailureBehavior.Abort ↔ rsToLowercase s = "abort")
    ∧ (failureBehaviorFromStr s = some FailureBehavior.Log ↔ rsToLowercase s = "log")
    ∧ (failureBehaviorFromStr s = some FailureBehavior.Skip ↔ rsToLowercase s = "skip")
    ∧ (failureBehaviorFromStr s = none ↔
        rsToLowercase s ∉ (["abort", "log", "skip"] : List String))
    ∧ (logLevelFromStr s = some LogLevel.error ↔ rsToLowercase s = "error")
    ∧ (logLevelFromStr s = some LogLevel.warn ↔ rsToLowercase s = "warn")
    ∧ (logLevelFromStr s = some LogLevel.info ↔ rsToLowercase s = "info")
    ∧ (logLevelFromStr s = some LogLevel.debug ↔ rsToLowercase s = "debug")
    ∧ (logLevelFromStr s = some LogLevel.trace ↔ rsToLowercase s = "trace")
    ∧ (logLevelFromStr s = none ↔
        rsToLowercase s ∉ (["error", "warn", "info", "debug", "trace"] : List String)) := by
  simp only [failureBehaviorFromStr, logLevelFromStr, List.mem_cons, List.not_mem_nil,
    or_false]
  split_ifs <;> simp_all

/-- Witness for claim C10: concrete mixed-case inputs, through the
theorem. -/
theorem claim_c10_witness :
    failureBehaviorFromStr "ABORT" = some FailureBehavior.Abort
    ∧ logLevelFromStr "TrAcE" = some LogLevel.trace
    ∧ failureBehaviorFromStr "fail" = none := by
  refine ⟨(claim_c10 "ABORT").1.mpr (by decide), ?_, ?_⟩
  · exact (claim_c10 "TrAcE").2.2.2.2.2.2.2.2.1.mpr (by decide)
  · exact (claim_c10 "fail").2.2.2.1.mpr (by decide)

/-- Claim C9: the description handed to the external generator is the
second line of the source file content (index 1 of its line list), and the
empty string when the content has fewer than two lines. -/
theorem claim_c9 (content : String) :
    (∀ (a b : String) (rest : List String),
        rsLines content = a :: b :: rest → secondLineDescription content = b)
    ∧ ((rsLines content).length < 2 → secondLineDescription content = "") := by
  constructor
  · intro a b rest hl
    simp [secondLineDescription, hl]
  · intro h
    rcases hl : rsLines content with _ | ⟨a, _ | ⟨b, rest⟩⟩
    · simp [secondLineDescription, hl]
    · simp [secondLineDescription, hl]
    · rw [hl] at h; simp at h; omega

/-- Witness for claim C9: a three-line content whose second line is the
description, through the theorem. -/
theorem claim_c9_witness :
    rsLines "# Title\n# Desc\nbody" = ["# Title", "# Desc", "body"]
    ∧ secondLineDescription "# Title\n# Desc\nbody" = "# Desc" := by
  refine ⟨by decide, ?_⟩
  exact (claim_c9 "# Title\n# Desc\nbody").1 "# Title" "# Desc" ["body"] (by decide)

/-- Claim C6: with the extension strategy, should_process is true exactly
when the path's final extension is the literal "nix" (case-sensitive), and
false for every path without an extension; with the pattern strategy it is
the compiled matcher run on the path's string form (search semantics).  The
example pattern matching a ".rs" suffix processes a.rs and not a.nix, and
the extension strategy the reverse. -/
theorem claim_c6 :
    (∀ p : RsPath,
        shouldProcess PathIdentification.nixExtension p = true ↔ rsExtension p = some "nix")
    ∧ (∀ p : RsPath, rsExtension p = none →
        shouldProcess PathIdentification.nixExtension p = false)
    ∧ (∀ (m : String → Bool) (p : RsPath),
        shouldProcess (PathIdentification.regexMatch m) p = m (rsToString p))
    ∧ shouldProcess (PathIdentification.regexMatch dotRsSuffixMatch)
        [PathComp.normal "a.rs"] = true
    ∧ shouldProcess (PathIdentification.regexMatch dotRsSuffixMatch)
        [PathComp.normal "a.nix"] = false
    ∧ shouldProcess PathIdentification.nixExtension [PathComp.normal "a.nix"] = true
    ∧ shouldProcess PathIdentification.nixExtension [PathComp.normal "a.rs"] = false := by
  refine ⟨?_, ?_, fun m p => rfl, by decide, by decide, by decide, by decide⟩
  · intro p
    cases hext : rsExtension p with
    | none => simp [shouldProcess, hext]
    | some e => simp [shouldProcess, hext]
  · intro p h
    simp [shouldProcess, h]

/-- Witness for claim C6: the extension characterization at a concrete
path, through the theorem. -/
theorem claim_c6_witness :
    rsExtension [PathComp.rootDir, PathComp.normal "lib", PathComp.normal "mod.nix"]
        = some "nix"
    ∧ shouldProcess PathIdentification.nixExtension
        [PathComp.rootDir, PathComp.normal "lib", PathComp.normal "mod.nix"] = true := by
  refine ⟨by decide, ?_⟩
  exact (claim_c6.1
    [PathComp.rootDir, PathComp.normal "lib", PathComp.normal "mod.nix"]).mpr (by decide)

/-- Claim C7: the generator is invoked with category, description and file
flags in that order, the prefix and anchor-prefix flags appended exactly
when the configured values are non-empty (the non-empty test is modelled
from the spec since the current execute is absent from src/, see
buildNixdoc); the destination file content is the subprocess stdout
verbatim; exit success yields Ok and any other exit yields an error
carrying the stderr text. -/
theorem claim_c7 :
    (∀ c d f pv av : String,
        (buildNixdoc c d f pv av).intoArgs
          = ["--category", c, "--description", d, "--file", f]
            ++ (if pv = "" then [] else ["--prefix", pv])
            ++ (if av = "" then [] else ["--anchor-prefix", av]))
    ∧ (∀ out : CommandOutput, nixdocDestContent out = out.stdoutText)
    ∧ (∀ out : CommandOutput, out.exitSuccess = true → nixdocResult out = Except.ok ())
    ∧ (∀ out : CommandOutput, out.exitSuccess = false →
        nixdocResult out = Except.error ("nixdoc command error: " ++ out.stderrText)) := by
  refine ⟨?_, fun out => rfl, ?_, ?_⟩
  · intro c d f pv av
    simp only [buildNixdoc, Nixdoc.intoArgs]
    split_ifs <;> simp
  · intro out h
    simp [nixdocResult, h]
  · intro out h
    simp [nixdocResult, h]

/-- Witness for claim C7: a concrete invocation with a prefix and no
anchor prefix, and a failing exit, through the theorem. -/
theorem claim_c7_witness :
    (buildNixdoc "lib" "Utility functions" "lib.nix" "mylib" "").intoArgs
      = ["--category", "lib", "--description", "Utility functions", "--file", "lib.nix",
         "--prefix", "mylib"]
    ∧ nixdocResult { exitSuccess := false, stdoutText := "", stderrText := "boom" }
      = Except.error ("nixdoc command error: " ++ "boom") := by
  constructor
  · rw [claim_c7.1 "lib" "Utility functions" "lib.nix" "mylib" ""]
    decide
  · exact claim_c7.2.2.2 { exitSuccess := false, stdoutText := "", stderrText := "boom" } rfl

/-- Auxiliary: the accumulator of String.intercalate.go factors out on the
left. -/
theorem intercalate_go_factor (s : String) (as : List String) :
    ∀ x y : String, String.intercalate.go (x ++ y) s as = x ++ String.intercalate.go y s as := by
  induction as with
  | nil => intro x y; rfl
  | cons a as ih =>
    intro x y
    show String.intercalate.go (x ++ y ++ s ++ a) s as
        = x ++ String.intercalate.go (y ++ s ++ a) s as
    rw [String.append_assoc x y s, String.append_assoc x (y ++ s) a]
    exact ih x (y ++ s ++ a)

/-- Auxiliary: String.intercalate unfolds one separator at a time on lists
of two or more pieces. -/
theorem intercalate_cons_cons (s a b : String) (l : List String) :
    String.intercalate s (a :: b :: l) = a ++ s ++ String.intercalate s (b :: l) := by
  show String.intercalate.go (a ++ s ++ b) s l = a ++ s ++ String.intercalate.go b s l
  rw [String.append_assoc a s b]
  rw [intercalate_go_factor s l a (s ++ b)]
  rw [intercalate_go_factor s l s b]
  rw [← String.append_assoc]

/-- Claim C3: the category is the dot-joined form of the source path taken
relative to the input root, with the final extension dropped from the last
component: a nonempty name sequence ds with last name n yields the dot
separated ds followed by the stem of n, a root-level file yields just its
stem, and the two spec examples compute as stated.  The derivation is
modelled from the spec because the current AutoNixdoc::execute is absent
from src/ (see categoryOf). -/
theorem claim_c3 :
    (∀ (ns : List String) (n : String),
        dottedCategory (ns ++ [n])
          = some (String.intercalate "." (ns ++ [rsStemStr n])))
    ∧ categoryOf exSrcRoot
        [PathComp.rootDir, PathComp.normal "src", PathComp.normal "root.nix"]
        = some "root"
    ∧ categoryOf exSrcRoot
        [PathComp.rootDir, PathComp.normal "src", PathComp.normal "utils",
         PathComp.normal "string", PathComp.normal "helpers.nix"]
        = some "utils.string.helpers" := by
  refine ⟨?_, by decide, by decide⟩
  intro ns
  induction ns with
  | nil => intro n; rfl
  | cons a ns ih =>
    intro n
    cases ns with
    | nil => rfl
    | cons b ns2 =>
      show (dottedCategory ((b :: ns2) ++ [n])).map (fun c => a ++ "." ++ c)
          = some (String.intercalate "." (a :: (b :: ns2) ++ [rsStemStr n]))
      rw [ih n]
      rw [show (a :: (b :: ns2) ++ [rsStemStr n])
            = a :: ((b :: ns2) ++ [rsStemStr n]) from rfl]
      rw [show ((b :: ns2) ++ [rsStemStr n]) = b :: (ns2 ++ [rsStemStr n]) from rfl]
      rw [intercalate_cons_cons "." a b (ns2 ++ [rsStemStr n])]
      rfl

/-- Witness for claim C3: the nested example through the general
characterization of the theorem. -/
theorem claim_c3_witness :
    dottedCategory ["utils", "string", "helpers.nix"]
      = some (String.intercalate "." ["utils", "string", rsStemStr "helpers.nix"]) := by
  exact claim_c3.1 ["utils", "string"] "helpers.nix"

/-- Claim C4: the driver applies the configured failure behavior uniformly
to traversal errors and to per-file generation errors: Abort returns the
contextualized error at once with nothing further processed, Log prepends a
diagnostic and continues exactly as the remaining walk would, Skip
continues with no diagnostic; and with no failure behavior from CLI,
environment or configuration file, the effective behavior is Log. -/
theorem claim_c4 :
    (∀ (ident : PathIdentification) (exec : RsPath → ExecResult) (e : String)
        (rest : List WalkItem),
      runInPath FailureBehavior.Abort ident exec (WalkItem.errEntry e :: rest)
        = { diagnostics := [], processed := [],
            outcome := RunEnd.failed ("Failed to list directory: " ++ e) }
      ∧ runInPath FailureBehavior.Log ident exec (WalkItem.errEntry e :: rest)
        = { diagnostics := ("Failed to list directory: " ++ e)
              :: (runInPath FailureBehavior.Log ident exec rest).diagnostics,
            processed := (runInPath FailureBehavior.Log ident exec rest).processed,
            outcome := (runInPath FailureBehavior.Log ident exec rest).outcome }
      ∧ runInPath FailureBehavior.Skip ident exec (WalkItem.errEntry e :: rest)
        = runInPath FailureBehavior.Skip ident exec rest)
    ∧ (∀ (ident : PathIdentification) (exec : RsPath → ExecResult) (p : RsPath)
        (rest : List WalkItem) (e : String),
      shouldProcess ident p = true → exec p = ExecResult.err e →
      runInPath FailureBehavior.Abort ident exec (WalkItem.fileEntry p false :: rest)
        = { diagnostics := [], processed := [],
            outcome := RunEnd.failed
              ("Documentation generation failed for file " ++ rsToString p ++ ": " ++ e) }
      ∧ runInPath FailureBehavior.Log ident exec (WalkItem.fileEntry p false :: rest)
        = { diagnostics :=
              ("Failed to generate documentation for " ++ rsToString p ++ ": " ++ e)
                :: (runInPath FailureBehavior.Log ident exec rest).diagnostics,
            processed := (runInPath FailureBehavior.Log ident exec rest).processed,
            outcome := (runInPath FailureBehavior.Log ident exec rest).outcome }
      ∧ runInPath FailureBehavior.Skip ident exec (WalkItem.fileEntry p false :: rest)
        = runInPath FailureBehavior.Skip ident exec rest)
    ∧ behaviorsOnFailure
        (resolveWithConfig none none failureBehaviorFromStr none) = FailureBehavior.Log := by
  refine ⟨?_, ?_, rfl⟩
  · intro ident exec e rest
    exact ⟨rfl, rfl, rfl⟩
  · intro ident exec p rest e hsp hex
    refine ⟨?_, ?_, ?_⟩ <;> simp [runInPath, hsp, hex]

/-- Witness for claim C4: concrete traversal and generation failures under
each behavior, through the theorem. -/
theorem claim_c4_witness :
    runInPath FailureBehavior.Abort PathIdentification.nixExtension
        (fun _ => ExecResult.err "boom") [WalkItem.errEntry "denied"]
      = { diagnostics := [], processed := [],
          outcome := RunEnd.failed ("Failed to list directory: " ++ "denied") }
    ∧ runInPath FailureBehavior.Skip PathIdentification.nixExtension
        (fun _ => ExecResult.err "boom")
        [WalkItem.fileEntry [PathComp.normal "a.nix"] false]
      = runInPath FailureBehavior.Skip PathIdentification.nixExtension
          (fun _ => ExecResult.err "boom") [] := by
  constructor
  · exact (claim_c4.1 PathIdentification.nixExtension
      (fun _ => ExecResult.err "boom") "denied" []).1
  · exact ((claim_c4.2.1 PathIdentification.nixExtension
      (fun _ => ExecResult.err "boom") [PathComp.normal "a.nix"] [] "boom"
      (by decide) rfl).2.2)

/-- Claim C8: a non-ignored source path whose parent is not under the input
root makes resolve panic with the bug-report message (a Rust panic, not a
recoverable error value), and a panic in the per-file pipeline ends the
run whatever the configured failure behavior, so it can never be swallowed
by Abort, Log or Skip. -/
theorem claim_c8 (m : AutoMapping) (config : AutoMappingConfig) (p d : RsPath)
    (hign : p ∉ config.ignorePaths) (hd : rsParent p = some d)
    (hr : rsStripBase m.sourceBase d = none) :
    m.resolve config p = ResolveResult.panicked
      "Source directory is not a prefix of source path? Please report this, it is a bug"
    ∧ (∀ e : String, m.resolve config p ≠ ResolveResult.err e)
    ∧ (∀ a : PathAction, m.resolve config p ≠ ResolveResult.ok a)
    ∧ (∀ (b : FailureBehavior) (ident : PathIdentification) (exec : RsPath → ExecResult)
        (rest : List WalkItem) (msg : String),
        shouldProcess ident p = true → exec p = ExecResult.panicked msg →
        runInPath b ident exec (WalkItem.fileEntry p false :: rest)
          = { diagnostics := [], processed := [], outcome := RunEnd.panicked msg }) := by
  have h1 : m.resolve config p = ResolveResult.panicked
      "Source directory is not a prefix of source path? Please report this, it is a bug" := by
    simp [AutoMapping.resolve, hign, hd, hr]
  refine ⟨h1, ?_, ?_, ?_⟩
  · intro e he
    rw [h1] at he
    exact ResolveResult.noConfusion he
  · intro a ha
    rw [h1] at ha
    exact ResolveResult.noConfusion ha
  · intro b ident exec rest msg hsp hex
    simp [runInPath, hsp, hex]

/-- Witness for claim C8: a source path outside the src root panics, and
the panic ends the run under the lenient Skip behavior, through the
theorem. -/
theorem claim_c8_witness :
    exMapping.resolve autoMappingConfigDefault
        [PathComp.rootDir, PathComp.normal "other", PathComp.normal "lib.nix"]
      = ResolveResult.panicked
          "Source directory is not a prefix of source path? Please report this, it is a bug"
    ∧ runInPath FailureBehavior.Skip PathIdentification.nixExtension
        (fun _ => ExecResult.panicked "prefix bug")
        [WalkItem.fileEntry
          [PathComp.rootDir, PathComp.normal "other", PathComp.normal "lib.nix"] false]
      = { diagnostics := [], processed := [],
          outcome := RunEnd.panicked "prefix bug" } := by
  have h := claim_c8 exMapping autoMappingConfigDefault
    [PathComp.rootDir, PathComp.normal "other", PathComp.normal "lib.nix"]
    [PathComp.rootDir, PathComp.normal "other"]
    (by decide) (by decide) (by decide)
  exact ⟨h.1, h.2.2.2 FailureBehavior.Skip PathIdentification.nixExtension
    (fun _ => ExecResult.panicked "prefix bug") [] "prefix bug" (by decide) rfl⟩

/-- Claim C1 counterexample: for the source path of the src root whose stem
itself contains a dot, the stem is foo.bar and the relative parent is
empty, so the claimed destination is the docs root joined with foo.bar.md;
the code instead strips the stem once more through with_extension and
produces foo.md.  So the destination is not always the output root joined
with the relative parent joined with the stem carrying the documentation
extension. -/
theorem claim_c1_counterexample :
    rsFileStem exDottedSource = some "foo.bar"
    ∧ rsParent exDottedSource = some exSrcRoot
    ∧ rsStripBase exSrcRoot exSrcRoot = some []
    ∧ exMapping.resolve autoMappingConfigDefault exDottedSource
        = ResolveResult.ok (PathAction.OutputTo
            [PathComp.rootDir, PathComp.normal "docs", PathComp.normal "foo.md"])
    ∧ exMapping.resolve autoMappingConfigDefault exDottedSource
        ≠ ResolveResult.ok (PathAction.OutputTo
            [PathComp.rootDir, PathComp.normal "docs", PathComp.normal "foo.bar.md"]) := by
  decide

/-- Claim C1 as amended: for a non-ignored source path under a nonempty
input root, with parent d, relative parent r and stem s, resolve returns
OutputTo of the output root followed by r followed by one final name that
is the stem of s with the documentation extension md (Rust set_extension
semantics: when s itself contains an interior dot, the portion after its
last dot is replaced rather than appended to); the destination lies under
the output root and its parent directory is exactly the output root
followed by r, mirroring the source directory structure. -/
theorem claim_c1_amended (m : AutoMapping) (config : AutoMappingConfig)
    (p d r : RsPath) (s : String)
    (hign : p ∉ config.ignorePaths)
    (hd : rsParent p = some d)
    (hr : rsStripBase m.sourceBase d = some r)
    (hs : rsFileStem p = some s)
    (hbase : m.sourceBase ≠ [])
    (hwf : rsWF d) :
    m.resolve config p = ResolveResult.ok (PathAction.OutputTo
      (m.destBase ++ r ++ [PathComp.normal (rsStemStr s ++ "." ++ "md")]))
    ∧ m.destBase <+: m.destBase ++ r ++ [PathComp.normal (rsStemStr s ++ "." ++ "md")]
    ∧ (m.destBase ++ r ++ [PathComp.normal (rsStemStr s ++ "." ++ "md")]).dropLast
        = m.destBase ++ r := by
  have hclean : ∀ c ∈ r, c ≠ PathComp.rootDir ∧ c ≠ PathComp.curDir :=
    fun c hc => hwf c (rsStripBase_mem_tail hbase hr c hc)
  have hroot1 : r.head? ≠ some PathComp.rootDir := by
    cases r with
    | nil => simp
    | cons c cs =>
      simp only [List.head?_cons, ne_eq, Option.some.injEq]
      exact (hclean c (by simp)).1
  have hcur1 : ∀ c ∈ r, notCurDir c = true := by
    intro c hc
    have h2 := (hclean c hc).2
    cases c <;> simp_all [notCurDir]
  have hj1 : rsJoin m.destBase r = m.destBase ++ r :=
    rsJoin_eq_append _ _ hroot1 hcur1
  have hroot2 : ([PathComp.normal s] : RsPath).head? ≠ some PathComp.rootDir := by
    simp
  have hcur2 : ∀ c ∈ ([PathComp.normal s] : RsPath), notCurDir c = true := by
    intro c hc
    simp at hc
    subst hc
    rfl
  have hj2 : rsJoin (m.destBase ++ r) [PathComp.normal s]
      = (m.destBase ++ r) ++ [PathComp.normal s] :=
    rsJoin_eq_append _ _ hroot2 hcur2
  have hfn : rsFileName ((m.destBase ++ r) ++ [PathComp.normal s]) = some s := by
    simp [rsFileName]
  have hwe : rsWithExtension ((m.destBase ++ r) ++ [PathComp.normal s]) "md"
      = (m.destBase ++ r) ++ [PathComp.normal (rsStemStr s ++ "." ++ "md")] := by
    unfold rsWithExtension
    rw [hfn]
    simp
  refine ⟨?_, ?_, ?_⟩
  · simp only [AutoMapping.resolve, hign, hd, hr, hs, if_neg, ite_false]
    rw [hj1, hj2, hwe]
  · rw [List.append_assoc]
    exact List.prefix_append m.destBase (r ++ [PathComp.normal (rsStemStr s ++ "." ++ "md")])
  · rw [List.append_assoc, ← List.append_assoc]
    simp

/-- Witness for the amended claim C1: the nested module below the src root
maps to the mirrored markdown path under the docs root, through the
theorem. -/
theorem claim_c1_amended_witness :
    exMapping.resolve autoMappingConfigDefault exNestedSource
      = ResolveResult.ok (PathAction.OutputTo
          (exDocsRoot ++ [PathComp.normal "lib"]
            ++ [PathComp.normal (rsStemStr "module" ++ "." ++ "md")]))
    ∧ exDocsRoot <+: exDocsRoot ++ [PathComp.normal "lib"]
        ++ [PathComp.normal (rsStemStr "module" ++ "." ++ "md")] := by
  have h := claim_c1_amended exMapping autoMappingConfigDefault exNestedSource
    [PathComp.rootDir, PathComp.normal "src", PathComp.normal "lib"]
    [PathComp.normal "lib"] "module"
    (by decide) (by decide) (by decide) (by decide) (by decide) (by decide)
  exact ⟨h.1, h.2.1⟩
